import Mathlib

/-!
Verification of the rwal colorscheme pipeline.

This file shallowly embeds the core of the rwal repository
(`src/rwal.rs`, `src/config.rs`, `src/backends/{mod,colorz,colorthief}.rs`)
in Lean 4 and proves the spec claims about it.

Modelling conventions:
* Rust `u8`/`u16`/`u32`/`usize` values are `Nat`; where the Rust code can
  wrap (the `u16` arithmetic in `mix_colors`, the `as u8` cast) the wrap is
  written explicitly as `% 2^16` / `% 2^8`.
* Rust `f32` settings fields and HSV components are modelled as exact
  rationals `ℚ` (exact-real model of the floating arithmetic).
* The external crates (`palette` colour conversions, `kmeans_colors`,
  `color_thief`) are black-box collaborators: the colour conversions are
  modelled from the spec (standard sRGB↔HSV with hue in degrees `[0,360)`,
  saturation/value in `[0,1]`), the quantization routines are abstracted as
  parameters of the embedded backend functions.
* Rust `Vec<T>`/slices are `List T`; `Option`/`Result` are `Option`/`Except`.
* Rust's `sort_by` is a stable sort; it is modelled with
  `List.insertionSort`, which is likewise stable, and for a total transitive
  comparison every stable sort computes the same function.
-/

namespace RwalSpec

/-- An sRGB colour: an `(r, g, b)` triple of 8-bit channels (`u8` as `Nat`). -/
abbrev Color := Nat × Nat × Nat

/-! ## `mix_colors` (src/rwal.rs lines 235-250) -/

/-- The channel interpolation closure inside `mix_colors`: `u8` operands are
widened to `u16`, combined as `a * (100 - pos) + b * pos` in (wrapping is
modelled explicitly by `% 2^16`) `u16` arithmetic, divided by `100`, and cast
back with `as u8` (`% 2^8`).  `pos` is already clamped by the caller. -/
def interpolate (pos a b : Nat) : Nat :=
  (a * (100 - pos) + b * pos) % 2 ^ 16 / 100 % 2 ^ 8

/-- Embeds `mix_colors` from src/rwal.rs: clamp the strength to `[0,100]`
and interpolate each channel. -/
def mix_colors (f s : Color) (pos : Nat) : Color :=
  let pos := min pos 100
  (interpolate pos f.1 s.1, interpolate pos f.2.1 s.2.1,
    interpolate pos f.2.2 s.2.2)

/-! ## Colour conversions

The sRGB↔HSV conversions live in the external `palette` crate, outside this
repository.  They are modelled from the spec over exact rationals: "standard
sRGB-to-HSV, hue in degrees, saturation/value normalized to [0,1]", hue in
`[0,360)`. -/

/-- An HSV colour with exact rational components. -/
structure HsvQ where
  h : ℚ
  s : ℚ
  v : ℚ
deriving DecidableEq, Repr

/-- Real-valued `mod` on rationals (`a - b * ⌊a / b⌋`), used for the hue
wrap-around in the standard conversion formulas. -/
def qmod (a b : ℚ) : ℚ := a - b * ⌊a / b⌋

/-- Rust's `f32::clamp`: if below `lo` return `lo`, if above `hi` return
`hi`, otherwise unchanged. -/
def qclamp (x lo hi : ℚ) : ℚ := if x < lo then lo else if hi < x then hi else x

/-- Models `Srgb::<u8>::into_format::<f32>()`: an 8-bit channel becomes
`n / 255`. -/
def chanQ (n : Nat) : ℚ := (n : ℚ) / 255

/-- Models `f32 → u8` channel conversion (`into_format::<u8>()`): scale by
255, round to nearest (half away from zero; the operands here are
nonnegative, so half up), clamp into `[0,255]`. -/
def q8 (q : ℚ) : Nat := (max 0 (min 255 ⌊q * 255 + 1 / 2⌋)).toNat

/-- Modelled from the spec: standard sRGB→HSV on exact rationals.
`max`/`min` over the three channels give value and chroma, saturation is
`delta / max` (0 for black), and the hue sector formula yields degrees in
`[0,360)`. -/
def rgbToHsvCore (r g b : ℚ) : HsvQ :=
  let M := max r (max g b)
  let m := min r (min g b)
  let d := M - m
  let v := M
  let s := if M = 0 then 0 else d / M
  let h :=
    if d = 0 then 0
    else if M = r then 60 * qmod ((g - b) / d) 6
    else if M = g then 60 * ((b - r) / d + 2)
    else 60 * ((r - g) / d + 4)
  ⟨h, s, v⟩

/-- Models `Hsv::from_color(Srgb::<f32>)` on an 8-bit colour. -/
def rgbToHsvQ (c : Color) : HsvQ :=
  rgbToHsvCore (chanQ c.1) (chanQ c.2.1) (chanQ c.2.2)

/-- Modelled from the spec: standard HSV→RGB on exact rationals (chroma /
sector / offset reconstruction). -/
def hsvToRgbCore (c : HsvQ) : ℚ × ℚ × ℚ :=
  let ch := c.v * c.s
  let h6 := c.h / 60
  let x := ch * (1 - |qmod h6 2 - 1|)
  let m := c.v - ch
  let sector : ℤ := ⌊h6⌋
  let rgb1 : ℚ × ℚ × ℚ :=
    if sector = 0 then (ch, x, 0)
    else if sector = 1 then (x, ch, 0)
    else if sector = 2 then (0, ch, x)
    else if sector = 3 then (0, x, ch)
    else if sector = 4 then (x, 0, ch)
    else (ch, 0, x)
  (rgb1.1 + m, rgb1.2.1 + m, rgb1.2.2 + m)

/-- Models `Srgb::from_color(hsv).into_format::<u8>()`: HSV back to an 8-bit
colour. -/
def hsvToRgbQ (c : HsvQ) : Color :=
  let q := hsvToRgbCore c
  (q8 q.1, q8 q.2.1, q8 q.2.2)

/-! ## `sort_by_hue` (src/rwal.rs lines 209-233) -/

/-- Comparison used by the hue sort: ascending by the hue component. -/
def hueLe (a b : HsvQ) : Prop := a.h ≤ b.h

instance : DecidableRel hueLe := fun a b => inferInstanceAs (Decidable (a.h ≤ b.h))

instance : IsTotal HsvQ hueLe := ⟨fun a b => le_total a.h b.h⟩

instance : IsTrans HsvQ hueLe := ⟨fun _ _ _ => le_trans⟩

/-- The hue of an 8-bit colour under the exact conversion. -/
def hueOf (c : Color) : ℚ := (rgbToHsvQ c).h

/-- Embeds `sort_by_hue` from src/rwal.rs: convert every colour to HSV,
stable-sort by the hue component, convert back.  Rust's `sort_by` is a
stable sort; `List.insertionSort` is the stable sort with the same
extensional behaviour for this total transitive comparison. -/
def sort_by_hue (palette : List Color) : List Color :=
  (List.insertionSort hueLe (palette.map rgbToHsvQ)).map hsvToRgbQ

/-! ## The `Rwal` record and `prepare_colors` (src/rwal.rs lines 9-88) -/

/-- The `Backend` selector enumeration (src/backends/mod.rs). -/
inductive Backend where
  | colorz : Backend
  | colorthief : Backend
deriving DecidableEq, Repr

/-- The `Rwal` struct from src/rwal.rs (the `f32` pairs as exact rationals;
the backend field is carried for completeness, dispatch is modelled at the
call sites). -/
structure Rwal where
  backend : Backend
  image_resize : Nat × Nat
  bg_idx : Nat
  bg_color : Color
  bg_strength : Nat
  fg_idx : Nat
  fg_strength : Nat
  fg_color : Color
  clamp_saturation : Bool
  saturation_clamp : ℚ × ℚ
  skip_saturation : Bool
  saturation_skip : ℚ × ℚ
  clamp_value : Bool
  value_clamp : ℚ × ℚ
  skip_value : Bool
  value_skip : ℚ × ℚ
deriving DecidableEq, Repr

/-- The clamp step of `prepare_colors`' final `map` closure: clamp
saturation, then value, each only when its toggle is on. -/
def clampHsv (rw : Rwal) (c : HsvQ) : HsvQ :=
  let c1 :=
    if rw.clamp_saturation then
      { c with s := qclamp c.s rw.saturation_clamp.1 rw.saturation_clamp.2 }
    else c
  if rw.clamp_value then
    { c1 with v := qclamp c1.v rw.value_clamp.1 rw.value_clamp.2 }
  else c1

/-- The claim-level retention predicate: for each enabled skip toggle the
sample's saturation/value lies strictly between the skip bounds. -/
def skipPred (rw : Rwal) (c : HsvQ) : Bool :=
  decide ((rw.skip_saturation = true →
      rw.saturation_skip.1 < c.s ∧ c.s < rw.saturation_skip.2) ∧
    (rw.skip_value = true →
      rw.value_skip.1 < c.v ∧ c.v < rw.value_skip.2))

/-- Embeds `Rwal::prepare_colors` (src/rwal.rs lines 35-88) on the pixel
list of the resized image: map to HSV, the two skip filters, then the
clamp-and-convert-back map. -/
def prepare_colors (rw : Rwal) (pixels : List Color) : List Color :=
  (((pixels.map rgbToHsvQ).filter fun c =>
        if !rw.skip_saturation then true
        else decide (rw.saturation_skip.1 < c.s) &&
          decide (c.s < rw.saturation_skip.2)).filter fun c =>
        if !rw.skip_value then true
        else decide (rw.value_skip.1 < c.v) &&
          decide (c.v < rw.value_skip.2)).map fun c =>
    hsvToRgbQ (clampHsv rw c)

/-! ## `Colorscheme` and `generate_colorscheme` (src/rwal.rs lines 90-155) -/

/-- The 16-slot `Colorscheme` struct. -/
structure Colorscheme where
  t0 : Color
  t1 : Color
  t2 : Color
  t3 : Color
  t4 : Color
  t5 : Color
  t6 : Color
  t7 : Color
  t8 : Color
  t9 : Color
  t10 : Color
  t11 : Color
  t12 : Color
  t13 : Color
  t14 : Color
  t15 : Color
deriving DecidableEq, Repr

/-- Rust's panicking slice index `palette[i]`, modelled as an `Except` so
that an out-of-bounds access is observable. -/
def idxE (l : List Color) (i : Nat) : Except String Color :=
  match l[i]? with
  | some c => Except.ok c
  | none => Except.error "index out of bounds"

/-- The synthesis tail of `generate_colorscheme` (src/rwal.rs lines
112-132): blend `t0`/`t7` from the accent indices, copy slots 1-6, and
build the light half by blending toward white. -/
def mkColorscheme (rw : Rwal) (palette : List Color) : Except String Colorscheme := do
  let pbg ← idxE palette rw.bg_idx
  let pfg ← idxE palette rw.fg_idx
  let p1 ← idxE palette 1
  let p2 ← idxE palette 2
  let p3 ← idxE palette 3
  let p4 ← idxE palette 4
  let p5 ← idxE palette 5
  let p6 ← idxE palette 6
  let bg := mix_colors rw.bg_color pbg rw.bg_strength
  let fg := mix_colors rw.fg_color pfg rw.fg_strength
  Except.ok
    { t0 := bg, t1 := p1, t2 := p2, t3 := p3, t4 := p4, t5 := p5, t6 := p6
      t7 := fg
      t8 := mix_colors bg (255, 255, 255) 10
      t9 := mix_colors p1 (255, 255, 255) 30
      t10 := mix_colors p2 (255, 255, 255) 30
      t11 := mix_colors p3 (255, 255, 255) 30
      t12 := mix_colors p4 (255, 255, 255) 30
      t13 := mix_colors p5 (255, 255, 255) 30
      t14 := mix_colors p6 (255, 255, 255) 30
      t15 := mix_colors fg (255, 255, 255) 10 }

/-- Embeds `Rwal::generate_colorscheme` (src/rwal.rs lines 90-133) from the
backend result onward (image decoding and resizing are external
collaborators, so the prepared colours have already been fed to the
backend, whose result is the argument): sort, length-check, sort again,
synthesize. -/
def generate_colorscheme (rw : Rwal) (backendResult : Option (List Color)) :
    Except String Colorscheme :=
  match backendResult with
  | none => Except.error "Failed to generate palette"
  | some palette =>
    let palette1 := sort_by_hue palette
    if palette1.length < 8 then Except.error "Not enough colors generated"
    else mkColorscheme rw (sort_by_hue palette1)

/-! ## String rendering helpers for the cache fingerprint

The fingerprint is built with `format!("{}{}...{}")` in
`Config::cache_string` (src/config.rs lines 54-80); the pieces below model
Rust's `Display` for each field type. -/

/-- The decimal digit character for `d < 10`. -/
def digitChar (d : Nat) : Char := Char.ofNat (48 + d)

/-- Decimal digits, most significant first, with explicit recursion fuel
(the number itself bounds the digit count, so the fuel never runs out). -/
def natCharsAux : Nat → Nat → List Char
  | 0, n => [digitChar (n % 10)]
  | fuel + 1, n =>
    if n < 10 then [digitChar n]
    else natCharsAux fuel (n / 10) ++ [digitChar (n % 10)]

/-- Decimal digits of a natural number, most significant first (models
Rust's `Display` for unsigned integers). -/
def natChars (n : Nat) : List Char := natCharsAux n n

/-- Rust's `Display` for an unsigned integer. -/
def natStr (n : Nat) : String := ⟨natChars n⟩

/-- Reads a decimal digit string back; inverse of `natChars`. -/
def charsVal (l : List Char) : Nat :=
  l.foldl (fun acc c => acc * 10 + (c.toNat - 48)) 0

/-- Rust's `Display` for `bool`. -/
def boolStr (b : Bool) : String := if b then "true" else "false"

/-- The `ToString` impl for `Backend` (src/backends/mod.rs lines 27-35). -/
def backendStr : Backend → String
  | Backend.colorthief => "colorthief"
  | Backend.colorz => "colorz"

/-- Fractional decimal digits of a rational in `[0,1)`, at most `fuel` of
them, stopping when the remainder is exactly zero. -/
def fracDigits : Nat → ℚ → List Char
  | 0, _ => []
  | fuel + 1, q =>
    if q = 0 then []
    else
      let q10 := q * 10
      let d := ⌊q10⌋
      digitChar d.toNat :: fracDigits fuel (q10 - d)

/-- Models Rust's `Display` for the `f32` settings fields: sign, integer
part, and (when nonzero) a point followed by the fractional digits.  The
concrete digit strings only matter through being a fixed deterministic
function of the field value, which is all the fingerprint claims use. -/
def fmtF32 (q : ℚ) : String :=
  let sign := if q < 0 then "-" else ""
  let ip := (⌊|q|⌋).toNat
  let frs := fracDigits 9 (|q| - ⌊|q|⌋)
  sign ++ natStr ip ++ (if frs.isEmpty then "" else "." ++ ⟨frs⟩)

/-! ## Hex colour strings (src/config.rs lines 176-193) -/

/-- The lowercase hex digit character for `d < 16`. -/
def hexDigitChar (d : Nat) : Char :=
  Char.ofNat (if d < 10 then 48 + d else 87 + d)

/-- The two lowercase hex digits of a byte (`{:02x}` on a `u8`). -/
def hex2 (n : Nat) : List Char := [hexDigitChar (n / 16 % 16), hexDigitChar (n % 16)]

/-- Embeds `rgb_to_hex` (src/config.rs lines 191-193):
`#` followed by three `{:02x}` channels. -/
def rgb_to_hex (c : Color) : String :=
  ⟨'#' :: (hex2 c.1 ++ hex2 c.2.1 ++ hex2 c.2.2)⟩

/-- The value of one hex digit character (`0-9`, `a-f`, `A-F`), as accepted
by Rust's `from_str_radix(_, 16)`. -/
def hexDigitVal (c : Char) : Option Nat :=
  if 48 ≤ c.toNat ∧ c.toNat ≤ 57 then some (c.toNat - 48)
  else if 97 ≤ c.toNat ∧ c.toNat ≤ 102 then some (c.toNat - 87)
  else if 65 ≤ c.toNat ∧ c.toNat ≤ 70 then some (c.toNat - 55)
  else none

/-- Models `u8::from_str_radix(s, 16)`: an optional leading `+`, at least
one hex digit, failure on any non-digit or on overflow past 255. -/
def parseHexU8 (l : List Char) : Option Nat :=
  let digits :=
    match l with
    | c :: rest => if c = '+' then rest else l
    | [] => l
  if digits.isEmpty then none
  else
    digits.foldl
      (fun acc c =>
        match acc, hexDigitVal c with
        | some a, some d => if a * 16 + d ≤ 255 then some (a * 16 + d) else none
        | _, _ => none)
      (some 0)

/-- Embeds `hex_to_rgb` (src/config.rs lines 176-189): require a leading
`#` and length 7, then parse the three two-digit components. -/
def hex_to_rgb (hex : String) : Except String Color :=
  let cs := hex.data
  if ¬(cs.head? = some '#' ∧ cs.length = 7) then
    Except.error ("Invalid hex color format: " ++ hex)
  else
    match parseHexU8 ((cs.drop 1).take 2) with
    | none => Except.error "Invalid red component"
    | some r =>
      match parseHexU8 ((cs.drop 3).take 2) with
      | none => Except.error "Invalid green component"
      | some g =>
        match parseHexU8 ((cs.drop 5).take 2) with
        | none => Except.error "Invalid blue component"
        | some b => Except.ok (r, g, b)

/-! ## `Config` (src/config.rs lines 5-166) -/

/-- The `Config` struct, field for field (src/config.rs lines 5-39), with
`f32` fields as exact rationals. -/
structure Config where
  backend : Backend
  thumb_w : Nat
  thumb_h : Nat
  bg_color : Color
  bg_idx : Nat
  bg_strength : Nat
  fg_color : Color
  fg_idx : Nat
  fg_strength : Nat
  light : Bool
  clamp_saturation : Bool
  clamp_value : Bool
  skip_saturation : Bool
  skip_value : Bool
  clamp_value_min : ℚ
  clamp_value_max : ℚ
  clamp_saturation_min : ℚ
  clamp_saturation_max : ℚ
  skip_value_min : ℚ
  skip_value_max : ℚ
  skip_saturation_min : ℚ
  skip_saturation_max : ℚ
deriving DecidableEq, Repr

/-- Embeds `Config::cache_string` (src/config.rs lines 54-80): every field
stringified and concatenated, with no separators, in the declared order. -/
def cache_string (c : Config) : String :=
  backendStr c.backend ++ natStr c.thumb_w ++ natStr c.thumb_h ++
  rgb_to_hex c.bg_color ++ natStr c.bg_idx ++ natStr c.bg_strength ++
  rgb_to_hex c.fg_color ++ natStr c.fg_idx ++ natStr c.fg_strength ++
  boolStr c.light ++ boolStr c.clamp_saturation ++ boolStr c.clamp_value ++
  boolStr c.skip_saturation ++ boolStr c.skip_value ++
  fmtF32 c.clamp_value_min ++ fmtF32 c.clamp_value_max ++
  fmtF32 c.clamp_saturation_min ++ fmtF32 c.clamp_saturation_max ++
  fmtF32 c.skip_value_min ++ fmtF32 c.skip_value_max ++
  fmtF32 c.skip_saturation_min ++ fmtF32 c.skip_saturation_max

/-- The cache key (src/main.rs line 273): `cache_string` followed by the
image's base filename. -/
def fingerprint (c : Config) (name : String) : String := cache_string c ++ name

/-- Embeds `Config::validate` (src/config.rs lines 82-136).  The float
range test is Rust's `(0.0..1.0).contains(&value)`, i.e.
`0.0 <= value && value < 1.0` — a half-open interval. -/
def validate (c : Config) : Except String Unit :=
  if c.thumb_w < 1 then Except.error "thumb_w must be at least 1"
  else if c.thumb_h < 1 then Except.error "thumb_h must be at least 1"
  else if c.bg_idx > 7 then Except.error "bg_idx must be between 1 and 7"
  else if c.fg_idx > 7 then Except.error "fg_idx must be between 1 and 7"
  else if c.bg_strength > 100 then
    Except.error "bg_strength must be between 0 and 100"
  else if c.fg_strength > 100 then
    Except.error "fg_strength must be between 0 and 100"
  else if ¬(0 ≤ c.clamp_value_min ∧ c.clamp_value_min < 1) then
    Except.error "clamp_value_min must be between 0.0 and 1.0"
  else if ¬(0 ≤ c.clamp_value_max ∧ c.clamp_value_max < 1) then
    Except.error "clamp_value_max must be between 0.0 and 1.0"
  else if ¬(0 ≤ c.clamp_saturation_min ∧ c.clamp_saturation_min < 1) then
    Except.error "clamp_saturation_min must be between 0.0 and 1.0"
  else if ¬(0 ≤ c.clamp_saturation_max ∧ c.clamp_saturation_max < 1) then
    Except.error "clamp_saturation_max must be between 0.0 and 1.0"
  else if ¬(0 ≤ c.skip_value_min ∧ c.skip_value_min < 1) then
    Except.error "skip_value_min must be between 0.0 and 1.0"
  else if ¬(0 ≤ c.skip_value_max ∧ c.skip_value_max < 1) then
    Except.error "skip_value_max must be between 0.0 and 1.0"
  else if ¬(0 ≤ c.skip_saturation_min ∧ c.skip_saturation_min < 1) then
    Except.error "skip_saturation_min must be between 0.0 and 1.0"
  else if ¬(0 ≤ c.skip_saturation_max ∧ c.skip_saturation_max < 1) then
    Except.error "skip_saturation_max must be between 0.0 and 1.0"
  else if c.clamp_value_min > c.clamp_value_max then
    Except.error "clamp_value_min must be <= clamp_value_max"
  else if c.clamp_saturation_min > c.clamp_saturation_max then
    Except.error "clamp_saturation_min must be <= clamp_saturation_max"
  else if c.skip_value_min > c.skip_value_max then
    Except.error "skip_value_min must be <= skip_value_max"
  else if c.skip_saturation_min > c.skip_saturation_max then
    Except.error "skip_saturation_min must be <= skip_saturation_max"
  else Except.ok ()

/-! ## The quantization backends (src/backends/) -/

/-- The result of one `get_kmeans` run from the external `kmeans_colors`
crate: an internal clustering score and the centroid list. -/
structure KmeansRun (Lab : Type) where
  score : ℚ
  centroids : List Lab

/-- The external collaborators of the ColorZ backend, abstracted: the
sRGB→Lab and Lab→sRGB conversions of the `palette` crate and `get_kmeans`
of the `kmeans_colors` crate (arguments: k, max iterations, convergence
threshold, verbosity, samples, seed). -/
structure ColorZExt (Lab : Type) where
  toLab : Color → Lab
  fromLab : Lab → Color
  getKmeans : Nat → Nat → ℚ → Bool → List Lab → Nat → KmeansRun Lab

/-- Rust's `Iterator::min_by` over the score comparison
(`partial_cmp(..).unwrap_or(Equal)`): fold that keeps the first minimal
element. -/
def minByScore {Lab : Type} : List (KmeansRun Lab) → Option (KmeansRun Lab)
  | [] => none
  | x :: xs => some (xs.foldl (fun acc y => if acc.score > y.score then y else acc) x)

/-- Embeds `ColorZ::generate_palette` (src/backends/colorz.rs lines 14-46):
empty input fails; otherwise convert to Lab, run `get_kmeans` three times
with seeds 64, 65, 66, keep the lowest-score run, convert the centroids
back, and pad with black up to `count`. -/
def colorz_generate_palette {Lab : Type} (ext : ColorZExt Lab)
    (colors : List Color) (count : Nat) : Option (List Color) :=
  if colors.isEmpty then none
  else
    let lab_colors := colors.map ext.toLab
    let runs := (List.range 3).map fun i =>
      ext.getKmeans count 100 (1 / 1000) false lab_colors (64 + i)
    match minByScore runs with
    | none => none
    | some clusters =>
      let base := clusters.centroids.map ext.fromLab
      some (base ++ List.replicate (count - base.length) (0, 0, 0))

/-- The `ColorFormat` argument of `color_thief::get_palette`. -/
inductive ColorFormat where
  | rgb : ColorFormat
deriving DecidableEq, Repr

/-- Embeds `ColorThief::generate_palette` (src/backends/colorthief.rs lines
6-17), abstracting the external `color_thief::get_palette` routine as the
first argument (arguments: interleaved bytes, pixel format, quality,
maximum colour count).  The requested `count` parameter is the ignored `_`
argument of the Rust method; the external call is made with quality 5 and
maximum colour count 255. -/
def colorthief_generate_palette
    (get_palette : List Nat → ColorFormat → Nat → Nat → Except Unit (List Color))
    (colors : List Color) (count : Nat) : Option (List Color) :=
  let _ := count
  let pixels := (colors.map fun c => [c.1, c.2.1, c.2.2]).flatten
  match get_palette pixels ColorFormat.rgb 5 255 with
  | Except.ok cs => some cs
  | Except.error _ => none

/-- The `Default` impl for `Config` (src/config.rs lines 139-166), the
`f32` literals as exact rationals. -/
def Config.default : Config where
  backend := Backend.colorz
  thumb_w := 100
  thumb_h := 100
  bg_color := (0, 0, 0)
  bg_idx := 0
  bg_strength := 10
  fg_color := (255, 255, 255)
  fg_idx := 0
  fg_strength := 10
  light := false
  clamp_saturation := true
  clamp_value := true
  skip_saturation := true
  skip_value := false
  clamp_value_min := 2 / 5
  clamp_value_max := 1 / 2
  clamp_saturation_min := 2 / 5
  clamp_saturation_max := 41 / 100
  skip_value_min := 1 / 10
  skip_value_max := 9 / 10
  skip_saturation_min := 3 / 10
  skip_saturation_max := 7 / 10

/-- A settings record that satisfies every invariant of the spec (bounds in
the closed interval `[0,1]`) but carries `clamp_value_max = 1.0`. -/
def cfgBoundary : Config := { Config.default with clamp_value_max := 1 }

/-- A probing stand-in for the external `color_thief::get_palette` that
succeeds exactly when the maximum-colour-count argument is 8. -/
def probeThief : List Nat → ColorFormat → Nat → Nat → Except Unit (List Color) :=
  fun _ _ _ maxColors => if maxColors = 8 then Except.ok [] else Except.error ()

/-- A concrete instantiation of the ColorZ externals used to witness the
backend theorem: every colour maps to the trivial Lab point, every centroid
converts back to `(7,7,7)`, and a run's score is its seed. -/
def extW : ColorZExt Unit where
  toLab := fun _ => ()
  fromLab := fun _ => (7, 7, 7)
  getKmeans := fun _ _ _ _ _ seed => ⟨(seed : ℚ), [(), ()]⟩

/-- The palette the witness instantiation produces: two converted centroids
padded with black up to the requested count 8. -/
def palW : List Color := [(7, 7, 7), (7, 7, 7)] ++ List.replicate 6 (0, 0, 0)

/-- A concrete `Rwal` record used by the synthesis witnesses. -/
def rwW : Rwal where
  backend := Backend.colorz
  image_resize := (100, 100)
  bg_idx := 0
  bg_color := (10, 10, 10)
  bg_strength := 10
  fg_idx := 7
  fg_strength := 10
  fg_color := (240, 240, 240)
  clamp_saturation := false
  saturation_clamp := (0, 1)
  skip_saturation := false
  saturation_skip := (0, 1)
  clamp_value := false
  value_clamp := (0, 1)
  skip_value := false
  value_skip := (0, 1)

/-- A concrete eight-entry palette for the synthesis witnesses. -/
def palW8 : List Color :=
  [(0, 0, 0), (1, 1, 1), (2, 2, 2), (3, 3, 3), (4, 4, 4), (5, 5, 5),
    (6, 6, 6), (7, 7, 7)]

/-- The witness settings with both skip toggles enabled. -/
def rwSkip : Rwal := { rwW with skip_saturation := true, skip_value := true }

/-! # Theorems -/

/-- C2: for all 8-bit channels `a`, `b` and strength `p ∈ [0,100]` the
channel blend computes exactly `(a*(100-p) + b*p) / 100` with truncating
division — the `u16` intermediate stays below `2^16` (no overflow) and the
quotient fits a `u8` — and blending black with white at strength 50 gives
exactly `(127,127,127)`. -/
theorem mix_colors_channel_blend_exact :
    (∀ a b p : Nat, a ≤ 255 → b ≤ 255 → p ≤ 100 →
      interpolate p a b = (a * (100 - p) + b * p) / 100 ∧
      a * (100 - p) + b * p < 2 ^ 16 ∧
      interpolate p a b ≤ 255) ∧
    mix_colors (0, 0, 0) (255, 255, 255) 50 = (127, 127, 127) := by
  constructor
  · intro a b p ha hb hp
    have hbound : a * (100 - p) + b * p ≤ 255 * (100 - p) + 255 * p :=
      Nat.add_le_add (Nat.mul_le_mul_right _ ha) (Nat.mul_le_mul_right _ hb)
    have h16 : a * (100 - p) + b * p < 2 ^ 16 := by omega
    have hdiv : (a * (100 - p) + b * p) / 100 ≤ 255 := by
      have := Nat.div_le_div_right (c := 100) hbound
      omega
    refine ⟨?_, h16, ?_⟩
    · unfold interpolate
      rw [Nat.mod_eq_of_lt h16, Nat.mod_eq_of_lt (by omega)]
    · unfold interpolate
      rw [Nat.mod_eq_of_lt h16, Nat.mod_eq_of_lt (by omega)]
      exact hdiv
  · decide

/-- Witness: the blend theorem applied at `a = 0`, `b = 255`, `p = 50`. -/
theorem mix_colors_channel_blend_exact_witness :
    interpolate 50 0 255 = (0 * (100 - 50) + 255 * 50) / 100 ∧
    0 * (100 - 50) + 255 * 50 < 2 ^ 16 ∧ interpolate 50 0 255 ≤ 255 :=
  mix_colors_channel_blend_exact.1 0 255 50 (by decide) (by decide) (by decide)

/-! ## Round-trip of the exact conversions -/

theorem floor_eval {q : ℚ} {k : ℤ} (h1 : (k : ℚ) ≤ q) (h2 : q < k + 1) :
    ⌊q⌋ = k := by
  rw [Int.floor_eq_iff]
  exact ⟨h1, h2⟩

theorem qmod_eval {a b : ℚ} {k : ℤ} (h1 : (k : ℚ) ≤ a / b) (h2 : a / b < k + 1) :
    qmod a b = a - b * k := by
  unfold qmod
  rw [floor_eval h1 h2]

theorem hsvToRgbCore_sector0 (hq sq vq : ℚ) (h0 : 0 ≤ hq) (h1 : hq < 60) :
    hsvToRgbCore ⟨hq, sq, vq⟩ =
      (vq, vq * sq * (hq / 60) + (vq - vq * sq), vq - vq * sq) := by
  have hf : ⌊hq / 60⌋ = (0 : ℤ) := floor_eval (by positivity) (by push_cast; linarith)
  have hm : qmod (hq / 60) 2 = hq / 60 - 2 * ((0 : ℤ) : ℚ) :=
    qmod_eval (k := 0) (by positivity) (by push_cast; linarith)
  simp only [hsvToRgbCore, hf, hm]
  rw [abs_of_nonpos (by push_cast; linarith)]
  simp only [Prod.mk.injEq]
  refine ⟨by push_cast; ring, by push_cast; ring, by push_cast; ring⟩

theorem hsvToRgbCore_sector1 (hq sq vq : ℚ) (h0 : 60 ≤ hq) (h1 : hq < 120) :
    hsvToRgbCore ⟨hq, sq, vq⟩ =
      (vq * sq * (2 - hq / 60) + (vq - vq * sq), vq, vq - vq * sq) := by
  have hf : ⌊hq / 60⌋ = (1 : ℤ) :=
    floor_eval (by push_cast; linarith) (by push_cast; linarith)
  have hm : qmod (hq / 60) 2 = hq / 60 - 2 * ((0 : ℤ) : ℚ) :=
    qmod_eval (k := 0) (by positivity) (by push_cast; linarith)
  simp only [hsvToRgbCore, hf, hm]
  rw [abs_of_nonneg (by push_cast; linarith)]
  simp only [Prod.mk.injEq]
  refine ⟨by push_cast; ring, by push_cast; ring, by push_cast; ring⟩

theorem hsvToRgbCore_sector2 (hq sq vq : ℚ) (h0 : 120 ≤ hq) (h1 : hq < 180) :
    hsvToRgbCore ⟨hq, sq, vq⟩ =
      (vq - vq * sq, vq, vq * sq * (hq / 60 - 2) + (vq - vq * sq)) := by
  have hf : ⌊hq / 60⌋ = (2 : ℤ) :=
    floor_eval (by push_cast; linarith) (by push_cast; linarith)
  have hm : qmod (hq / 60) 2 = hq / 60 - 2 * ((1 : ℤ) : ℚ) :=
    qmod_eval (k := 1) (by push_cast; linarith) (by push_cast; linarith)
  simp only [hsvToRgbCore, hf, hm]
  rw [abs_of_nonpos (by push_cast; linarith)]
  simp only [Prod.mk.injEq]
  refine ⟨by push_cast; ring, by push_cast; ring, by push_cast; ring⟩

theorem hsvToRgbCore_sector3 (hq sq vq : ℚ) (h0 : 180 ≤ hq) (h1 : hq < 240) :
    hsvToRgbCore ⟨hq, sq, vq⟩ =
      (vq - vq * sq, vq * sq * (4 - hq / 60) + (vq - vq * sq), vq) := by
  have hf : ⌊hq / 60⌋ = (3 : ℤ) :=
    floor_eval (by push_cast; linarith) (by push_cast; linarith)
  have hm : qmod (hq / 60) 2 = hq / 60 - 2 * ((1 : ℤ) : ℚ) :=
    qmod_eval (k := 1) (by push_cast; linarith) (by push_cast; linarith)
  simp only [hsvToRgbCore, hf, hm]
  rw [abs_of_nonneg (by push_cast; linarith)]
  simp only [Prod.mk.injEq]
  refine ⟨by push_cast; ring, by push_cast; ring, by push_cast; ring⟩

theorem hsvToRgbCore_sector4 (hq sq vq : ℚ) (h0 : 240 ≤ hq) (h1 : hq < 300) :
    hsvToRgbCore ⟨hq, sq, vq⟩ =
      (vq * sq * (hq / 60 - 4) + (vq - vq * sq), vq - vq * sq, vq) := by
  have hf : ⌊hq / 60⌋ = (4 : ℤ) :=
    floor_eval (by push_cast; linarith) (by push_cast; linarith)
  have hm : qmod (hq / 60) 2 = hq / 60 - 2 * ((2 : ℤ) : ℚ) :=
    qmod_eval (k := 2) (by push_cast; linarith) (by push_cast; linarith)
  simp only [hsvToRgbCore, hf, hm]
  rw [abs_of_nonpos (by push_cast; linarith)]
  simp only [Prod.mk.injEq]
  refine ⟨by push_cast; ring, by push_cast; ring, by push_cast; ring⟩

theorem hsvToRgbCore_sector5 (hq sq vq : ℚ) (h0 : 300 ≤ hq) (h1 : hq < 360) :
    hsvToRgbCore ⟨hq, sq, vq⟩ =
      (vq, vq - vq * sq, vq * sq * (6 - hq / 60) + (vq - vq * sq)) := by
  have hf : ⌊hq / 60⌋ = (5 : ℤ) :=
    floor_eval (by push_cast; linarith) (by push_cast; linarith)
  have hm : qmod (hq / 60) 2 = hq / 60 - 2 * ((2 : ℤ) : ℚ) :=
    qmod_eval (k := 2) (by push_cast; linarith) (by push_cast; linarith)
  simp only [hsvToRgbCore, hf, hm]
  rw [abs_of_nonneg (by push_cast; linarith)]
  simp only [Prod.mk.injEq]
  refine ⟨by push_cast; ring, by push_cast; ring, by push_cast; ring⟩

theorem roundtrip_grey (a : ℚ) : hsvToRgbCore (rgbToHsvCore a a a) = (a, a, a) := by
  have hcore : rgbToHsvCore a a a = ⟨0, 0, a⟩ := by
    simp [rgbToHsvCore]
  rw [hcore, hsvToRgbCore_sector0 0 0 a le_rfl (by norm_num)]
  norm_num

theorem roundtrip_max_r (r g b : ℚ) (hg0 : 0 ≤ g) (hb0 : 0 ≤ b)
    (hgr : g ≤ r) (hbr : b ≤ r) (hmlt : min g b < r) :
    hsvToRgbCore (rgbToHsvCore r g b) = (r, g, b) := by
  have hM : max r (max g b) = r := max_eq_left (max_le hgr hbr)
  have hr0 : (0 : ℚ) < r := lt_of_le_of_lt (le_min hg0 hb0) hmlt
  rcases le_or_lt b g with hbg | hgb
  · -- min is b
    have hmin : min r (min g b) = b := by rw [min_eq_right hbg, min_eq_right hbr]
    have hblt : b < r := by rw [min_eq_right hbg] at hmlt; exact hmlt
    have hdne : r - b ≠ 0 := sub_ne_zero_of_ne (ne_of_gt hblt)
    have hcore : rgbToHsvCore r g b =
        ⟨60 * qmod ((g - b) / (r - b)) 6, (r - b) / r, r⟩ := by
      simp only [rgbToHsvCore, hM, hmin]
      rw [if_neg hdne, if_pos trivial, if_neg (ne_of_gt hr0)]
    have ht0 : 0 ≤ (g - b) / (r - b) := div_nonneg (by linarith) (by linarith)
    have ht1 : (g - b) / (r - b) ≤ 1 := (div_le_one (by linarith)).mpr (by linarith)
    have hq : qmod ((g - b) / (r - b)) 6 = (g - b) / (r - b) := by
      have h := qmod_eval (a := (g - b) / (r - b)) (b := 6) (k := 0)
        (by positivity) (by push_cast; linarith)
      simpa using h
    rw [hcore, hq]
    rcases lt_or_eq_of_le hgr with hglt | hgeq
    · have htlt : (g - b) / (r - b) < 1 := (div_lt_one (by linarith)).mpr (by linarith)
      rw [hsvToRgbCore_sector0 _ _ _ (by linarith) (by linarith)]
      simp only [Prod.mk.injEq]
      refine ⟨?_, ?_, ?_⟩ <;> first | trivial | (field_simp <;> ring) | ring
    · rw [hgeq, div_self hdne,
        hsvToRgbCore_sector1 _ _ _ (by norm_num) (by norm_num)]
      simp only [Prod.mk.injEq]
      refine ⟨?_, ?_, ?_⟩ <;> first | trivial | (field_simp <;> ring) | ring
  · -- min is g
    have hmin : min r (min g b) = g := by
      rw [min_eq_left (le_of_lt hgb), min_eq_right hgr]
    have hglt : g < r := by rw [min_eq_left (le_of_lt hgb)] at hmlt; exact hmlt
    have hdpos : (0 : ℚ) < r - g := by linarith
    have hdne : r - g ≠ 0 := ne_of_gt hdpos
    have hcore : rgbToHsvCore r g b =
        ⟨60 * qmod ((g - b) / (r - g)) 6, (r - g) / r, r⟩ := by
      simp only [rgbToHsvCore, hM, hmin]
      rw [if_neg hdne, if_pos trivial, if_neg (ne_of_gt hr0)]
    have h1 : (b - g) / (r - g) ≤ 1 := (div_le_one hdpos).mpr (by linarith)
    have hneg : (g - b) / (r - g) = -((b - g) / (r - g)) := by ring
    have ht0 : -1 ≤ (g - b) / (r - g) := by rw [hneg]; linarith
    have ht1 : (g - b) / (r - g) < 0 := div_neg_of_neg_of_pos (by linarith) hdpos
    have hq : qmod ((g - b) / (r - g)) 6 = (g - b) / (r - g) + 6 := by
      have h := qmod_eval (a := (g - b) / (r - g)) (b := 6) (k := -1)
        (by push_cast; linarith) (by push_cast; linarith)
      push_cast at h
      linarith [h]
    rw [hcore, hq, hsvToRgbCore_sector5 _ _ _ (by linarith) (by linarith)]
    simp only [Prod.mk.injEq]
    refine ⟨?_, ?_, ?_⟩ <;> first | trivial | (field_simp <;> ring) | ring

theorem roundtrip_max_g (r g b : ℚ) (hr0 : 0 ≤ r) (hb0 : 0 ≤ b)
    (hrg : r < g) (hbg : b ≤ g) :
    hsvToRgbCore (rgbToHsvCore r g b) = (r, g, b) := by
  have hM : max r (max g b) = g := by
    rw [max_eq_left hbg]; exact max_eq_right (le_of_lt hrg)
  have hg0 : (0 : ℚ) < g := lt_of_le_of_lt hr0 hrg
  rcases le_or_lt r b with hrb | hbr
  · -- min is r
    have hmin : min r (min g b) = r := min_eq_left (le_min (le_of_lt hrg) hrb)
    have hdne : g - r ≠ 0 := sub_ne_zero_of_ne (ne_of_gt hrg)
    have hcore : rgbToHsvCore r g b =
        ⟨60 * ((b - r) / (g - r) + 2), (g - r) / g, g⟩ := by
      simp only [rgbToHsvCore, hM, hmin]
      rw [if_neg hdne, if_neg (ne_of_gt hrg), if_pos trivial, if_neg (ne_of_gt hg0)]
    have hu0 : 0 ≤ (b - r) / (g - r) := div_nonneg (by linarith) (by linarith)
    rw [hcore]
    rcases lt_or_eq_of_le hbg with hblt | hbeq
    · have hult : (b - r) / (g - r) < 1 := (div_lt_one (by linarith)).mpr (by linarith)
      rw [hsvToRgbCore_sector2 _ _ _ (by linarith) (by linarith)]
      simp only [Prod.mk.injEq]
      refine ⟨?_, ?_, ?_⟩ <;> first | trivial | (field_simp <;> ring) | ring
    · rw [hbeq, div_self hdne,
        hsvToRgbCore_sector3 _ _ _ (by norm_num) (by norm_num)]
      simp only [Prod.mk.injEq]
      refine ⟨?_, ?_, ?_⟩ <;> first | trivial | (field_simp <;> ring) | ring
  · -- min is b
    have hblt : b < g := lt_trans hbr hrg
    have hmin : min r (min g b) = b := by
      rw [min_eq_right hbg, min_eq_right (le_of_lt hbr)]
    have hdpos : (0 : ℚ) < g - b := by linarith
    have hdne : g - b ≠ 0 := ne_of_gt hdpos
    have hcore : rgbToHsvCore r g b =
        ⟨60 * ((b - r) / (g - b) + 2), (g - b) / g, g⟩ := by
      simp only [rgbToHsvCore, hM, hmin]
      rw [if_neg hdne, if_neg (ne_of_gt hrg), if_pos trivial, if_neg (ne_of_gt hg0)]
    have h1 : (r - b) / (g - b) < 1 := (div_lt_one hdpos).mpr (by linarith)
    have hneg : (b - r) / (g - b) = -((r - b) / (g - b)) := by ring
    have hu0 : -1 < (b - r) / (g - b) := by rw [hneg]; linarith
    have hu1 : (b - r) / (g - b) < 0 := div_neg_of_neg_of_pos (by linarith) hdpos
    rw [hcore, hsvToRgbCore_sector1 _ _ _ (by linarith) (by linarith)]
    simp only [Prod.mk.injEq]
    refine ⟨?_, ?_, ?_⟩ <;> first | trivial | (field_simp <;> ring) | ring

theorem roundtrip_max_b (r g b : ℚ) (hr0 : 0 ≤ r) (hg0 : 0 ≤ g)
    (hrb : r < b) (hgb : g < b) :
    hsvToRgbCore (rgbToHsvCore r g b) = (r, g, b) := by
  have hM : max r (max g b) = b := by
    rw [max_eq_right (le_of_lt hgb)]; exact max_eq_right (le_of_lt hrb)
  have hb0 : (0 : ℚ) < b := lt_of_le_of_lt hr0 hrb
  rcases le_or_lt g r with hgr | hrg
  · -- min is g
    have hmin : min r (min g b) = g := by
      rw [min_eq_left (le_of_lt hgb)]; exact min_eq_right hgr
    have hdpos : (0 : ℚ) < b - g := by linarith
    have hdne : b - g ≠ 0 := ne_of_gt hdpos
    have hcore : rgbToHsvCore r g b =
        ⟨60 * ((r - g) / (b - g) + 4), (b - g) / b, b⟩ := by
      simp only [rgbToHsvCore, hM, hmin]
      rw [if_neg hdne, if_neg (ne_of_gt hrb), if_neg (ne_of_gt hgb),
        if_neg (ne_of_gt hb0)]
    have hw0 : 0 ≤ (r - g) / (b - g) := div_nonneg (by linarith) (by linarith)
    have hw1 : (r - g) / (b - g) < 1 := (div_lt_one hdpos).mpr (by linarith)
    rw [hcore, hsvToRgbCore_sector4 _ _ _ (by linarith) (by linarith)]
    simp only [Prod.mk.injEq]
    refine ⟨?_, ?_, ?_⟩ <;> first | trivial | (field_simp <;> ring) | ring
  · -- min is r
    have hmin : min r (min g b) = r := min_eq_left (le_min (le_of_lt hrg) (le_of_lt hrb))
    have hdpos : (0 : ℚ) < b - r := by linarith
    have hdne : b - r ≠ 0 := ne_of_gt hdpos
    have hcore : rgbToHsvCore r g b =
        ⟨60 * ((r - g) / (b - r) + 4), (b - r) / b, b⟩ := by
      simp only [rgbToHsvCore, hM, hmin]
      rw [if_neg hdne, if_neg (ne_of_gt hrb), if_neg (ne_of_gt hgb),
        if_neg (ne_of_gt hb0)]
    have h1 : (g - r) / (b - r) < 1 := (div_lt_one hdpos).mpr (by linarith)
    have hneg : (r - g) / (b - r) = -((g - r) / (b - r)) := by ring
    have hw0 : -1 < (r - g) / (b - r) := by rw [hneg]; linarith
    have hw1 : (r - g) / (b - r) < 0 := div_neg_of_neg_of_pos (by linarith) hdpos
    rw [hcore, hsvToRgbCore_sector3 _ _ _ (by linarith) (by linarith)]
    simp only [Prod.mk.injEq]
    refine ⟨?_, ?_, ?_⟩ <;> first | trivial | (field_simp <;> ring) | ring

/-- Round trip of the exact-rational conversions: converting nonnegative RGB
to HSV and back is the identity. -/
theorem hsvToRgbCore_rgbToHsvCore (r g b : ℚ) (hr : 0 ≤ r) (hg : 0 ≤ g)
    (hb : 0 ≤ b) : hsvToRgbCore (rgbToHsvCore r g b) = (r, g, b) := by
  rcases le_or_lt g r with hgr | hrg
  · rcases le_or_lt b r with hbr | hrb
    · rcases lt_or_le (min g b) r with hmlt | hmge
      · exact roundtrip_max_r r g b hg hb hgr hbr hmlt
      · have hge : g = r := le_antisymm hgr (le_trans hmge (min_le_left g b))
        have hbe : b = r := le_antisymm hbr (le_trans hmge (min_le_right g b))
        rw [hge, hbe]
        exact roundtrip_grey r
    · exact roundtrip_max_b r g b hr hg hrb (lt_of_le_of_lt hgr hrb)
  · rcases le_or_lt b g with hbg | hgb
    · exact roundtrip_max_g r g b hr hb hrg hbg
    · exact roundtrip_max_b r g b hr hg (lt_trans hrg hgb) hgb

/-- Quantizing the exact channel of an 8-bit value recovers the value. -/
theorem q8_chanQ (n : Nat) (hn : n ≤ 255) : q8 (chanQ n) = n := by
  unfold q8 chanQ
  have h255 : ((n : ℚ) / 255) * 255 = (n : ℚ) := by field_simp
  rw [h255]
  have hf : ⌊(n : ℚ) + 1 / 2⌋ = (n : ℤ) := floor_eval (by push_cast; linarith)
    (by push_cast; linarith)
  rw [hf, min_eq_right (by exact_mod_cast hn), max_eq_right (by positivity)]
  exact Int.toNat_natCast n

/-- Round trip at the 8-bit level: HSV conversion and back is the identity
on genuine `u8` colours. -/
theorem hsvToRgbQ_rgbToHsvQ (c : Color) (h1 : c.1 ≤ 255) (h2 : c.2.1 ≤ 255)
    (h3 : c.2.2 ≤ 255) : hsvToRgbQ (rgbToHsvQ c) = c := by
  obtain ⟨r, g, b⟩ := c
  have hc : ∀ n : Nat, (0 : ℚ) ≤ chanQ n := fun n => by unfold chanQ; positivity
  unfold hsvToRgbQ rgbToHsvQ
  rw [hsvToRgbCore_rgbToHsvCore _ _ _ (hc r) (hc g) (hc b)]
  exact Prod.ext (q8_chanQ r h1) (Prod.ext (q8_chanQ g h2) (q8_chanQ b h3))

/-! ## Hex round trip (claim C8) -/

theorem parseHexU8_hex2 : ∀ n < 256, parseHexU8 (hex2 n) = some n := by
  set_option maxRecDepth 4000 in decide

/-- C8: for every `(r,g,b)` triple of 8-bit channels, encoding with
`rgb_to_hex` and decoding with `hex_to_rgb` returns `Ok` of exactly the
original triple — the hex round trip is lossless. -/
theorem hex_encode_decode_roundtrip (r g b : Nat) (hr : r ≤ 255)
    (hg : g ≤ 255) (hb : b ≤ 255) :
    hex_to_rgb (rgb_to_hex (r, g, b)) = Except.ok (r, g, b) := by
  have hch2 : ∀ n, n < 256 →
      parseHexU8 [hexDigitChar (n / 16 % 16), hexDigitChar (n % 16)] = some n := by
    simpa [hex2] using parseHexU8_hex2
  simp only [hex_to_rgb, rgb_to_hex, hex2, List.cons_append, List.nil_append]
  rw [if_neg (by simp)]
  simp only [List.drop_succ_cons, List.drop_zero, List.take_succ_cons,
    List.take_zero]
  rw [hch2 r (by omega), hch2 g (by omega), hch2 b (by omega)]

/-- Witness: the round trip applied at the concrete colour `(18, 52, 255)`. -/
theorem hex_encode_decode_roundtrip_witness :
    hex_to_rgb (rgb_to_hex (18, 52, 255)) = Except.ok (18, 52, 255) :=
  hex_encode_decode_roundtrip 18 52 255 (by decide) (by decide) (by decide)

/-! ## Config validation (claim C9) -/

section RatKernelEval

attribute [local semireducible] Rat.mul Rat.add Rat.sub Rat.inv Rat.ofScientific

/-- C9 counterexample: `cfgBoundary` satisfies every invariant the claim
lists (all eight HSV bound fields in the closed interval `[0.0, 1.0]`, each
min ≤ max, indices and strengths in range), yet `validate` rejects it —
the code tests the half-open range `(0.0..1.0)`. -/
theorem validate_rejects_closed_bound :
    (1 ≤ cfgBoundary.thumb_w ∧ 1 ≤ cfgBoundary.thumb_h ∧
     cfgBoundary.bg_idx ≤ 7 ∧ cfgBoundary.fg_idx ≤ 7 ∧
     cfgBoundary.bg_strength ≤ 100 ∧ cfgBoundary.fg_strength ≤ 100 ∧
     (0 ≤ cfgBoundary.clamp_value_min ∧ cfgBoundary.clamp_value_min ≤ 1) ∧
     (0 ≤ cfgBoundary.clamp_value_max ∧ cfgBoundary.clamp_value_max ≤ 1) ∧
     (0 ≤ cfgBoundary.clamp_saturation_min ∧ cfgBoundary.clamp_saturation_min ≤ 1) ∧
     (0 ≤ cfgBoundary.clamp_saturation_max ∧ cfgBoundary.clamp_saturation_max ≤ 1) ∧
     (0 ≤ cfgBoundary.skip_value_min ∧ cfgBoundary.skip_value_min ≤ 1) ∧
     (0 ≤ cfgBoundary.skip_value_max ∧ cfgBoundary.skip_value_max ≤ 1) ∧
     (0 ≤ cfgBoundary.skip_saturation_min ∧ cfgBoundary.skip_saturation_min ≤ 1) ∧
     (0 ≤ cfgBoundary.skip_saturation_max ∧ cfgBoundary.skip_saturation_max ≤ 1) ∧
     cfgBoundary.clamp_value_min ≤ cfgBoundary.clamp_value_max ∧
     cfgBoundary.clamp_saturation_min ≤ cfgBoundary.clamp_saturation_max ∧
     cfgBoundary.skip_value_min ≤ cfgBoundary.skip_value_max ∧
     cfgBoundary.skip_saturation_min ≤ cfgBoundary.skip_saturation_max) ∧
    validate cfgBoundary =
      Except.error "clamp_value_max must be between 0.0 and 1.0" := by
  exact ⟨by decide, by rfl⟩

end RatKernelEval

/-- C9 (amended): validation succeeds exactly when `thumb_w ≥ 1`,
`thumb_h ≥ 1`, the accent indices are in `[0,7]`, the strengths in
`[0,100]`, every HSV bound field lies in the half-open interval
`[0.0, 1.0)` (not the closed `[0.0, 1.0]`), and each `(min, max)` pair
satisfies `min ≤ max`. -/
theorem validate_ok_iff (c : Config) :
    validate c = Except.ok () ↔
      (1 ≤ c.thumb_w ∧ 1 ≤ c.thumb_h ∧ c.bg_idx ≤ 7 ∧ c.fg_idx ≤ 7 ∧
       c.bg_strength ≤ 100 ∧ c.fg_strength ≤ 100 ∧
       (0 ≤ c.clamp_value_min ∧ c.clamp_value_min < 1) ∧
       (0 ≤ c.clamp_value_max ∧ c.clamp_value_max < 1) ∧
       (0 ≤ c.clamp_saturation_min ∧ c.clamp_saturation_min < 1) ∧
       (0 ≤ c.clamp_saturation_max ∧ c.clamp_saturation_max < 1) ∧
       (0 ≤ c.skip_value_min ∧ c.skip_value_min < 1) ∧
       (0 ≤ c.skip_value_max ∧ c.skip_value_max < 1) ∧
       (0 ≤ c.skip_saturation_min ∧ c.skip_saturation_min < 1) ∧
       (0 ≤ c.skip_saturation_max ∧ c.skip_saturation_max < 1) ∧
       c.clamp_value_min ≤ c.clamp_value_max ∧
       c.clamp_saturation_min ≤ c.clamp_saturation_max ∧
       c.skip_value_min ≤ c.skip_value_max ∧
       c.skip_saturation_min ≤ c.skip_saturation_max) := by
  unfold validate
  constructor
  · intro h
    by_cases h1 : c.thumb_w < 1
    · rw [if_pos h1] at h; exact Except.noConfusion h
    rw [if_neg h1] at h
    by_cases h2 : c.thumb_h < 1
    · rw [if_pos h2] at h; exact Except.noConfusion h
    rw [if_neg h2] at h
    by_cases h3 : c.bg_idx > 7
    · rw [if_pos h3] at h; exact Except.noConfusion h
    rw [if_neg h3] at h
    by_cases h4 : c.fg_idx > 7
    · rw [if_pos h4] at h; exact Except.noConfusion h
    rw [if_neg h4] at h
    by_cases h5 : c.bg_strength > 100
    · rw [if_pos h5] at h; exact Except.noConfusion h
    rw [if_neg h5] at h
    by_cases h6 : c.fg_strength > 100
    · rw [if_pos h6] at h; exact Except.noConfusion h
    rw [if_neg h6] at h
    by_cases h7 : ¬(0 ≤ c.clamp_value_min ∧ c.clamp_value_min < 1)
    · rw [if_pos h7] at h; exact Except.noConfusion h
    rw [if_neg h7] at h
    by_cases h8 : ¬(0 ≤ c.clamp_value_max ∧ c.clamp_value_max < 1)
    · rw [if_pos h8] at h; exact Except.noConfusion h
    rw [if_neg h8] at h
    by_cases h9 : ¬(0 ≤ c.clamp_saturation_min ∧ c.clamp_saturation_min < 1)
    · rw [if_pos h9] at h; exact Except.noConfusion h
    rw [if_neg h9] at h
    by_cases h10 : ¬(0 ≤ c.clamp_saturation_max ∧ c.clamp_saturation_max < 1)
    · rw [if_pos h10] at h; exact Except.noConfusion h
    rw [if_neg h10] at h
    by_cases h11 : ¬(0 ≤ c.skip_value_min ∧ c.skip_value_min < 1)
    · rw [if_pos h11] at h; exact Except.noConfusion h
    rw [if_neg h11] at h
    by_cases h12 : ¬(0 ≤ c.skip_value_max ∧ c.skip_value_max < 1)
    · rw [if_pos h12] at h; exact Except.noConfusion h
    rw [if_neg h12] at h
    by_cases h13 : ¬(0 ≤ c.skip_saturation_min ∧ c.skip_saturation_min < 1)
    · rw [if_pos h13] at h; exact Except.noConfusion h
    rw [if_neg h13] at h
    by_cases h14 : ¬(0 ≤ c.skip_saturation_max ∧ c.skip_saturation_max < 1)
    · rw [if_pos h14] at h; exact Except.noConfusion h
    rw [if_neg h14] at h
    by_cases h15 : c.clamp_value_min > c.clamp_value_max
    · rw [if_pos h15] at h; exact Except.noConfusion h
    rw [if_neg h15] at h
    by_cases h16 : c.clamp_saturation_min > c.clamp_saturation_max
    · rw [if_pos h16] at h; exact Except.noConfusion h
    rw [if_neg h16] at h
    by_cases h17 : c.skip_value_min > c.skip_value_max
    · rw [if_pos h17] at h; exact Except.noConfusion h
    rw [if_neg h17] at h
    by_cases h18 : c.skip_saturation_min > c.skip_saturation_max
    · rw [if_pos h18] at h; exact Except.noConfusion h
    rw [if_neg h18] at h
    rw [not_not] at h7 h8 h9 h10 h11 h12 h13 h14
    push_neg at h15 h16 h17 h18
    exact ⟨by omega, by omega, by omega, by omega, by omega, by omega,
      h7, h8, h9, h10, h11, h12, h13, h14, h15, h16, h17, h18⟩
  · intro hc
    obtain ⟨k1, k2, k3, k4, k5, k6, k7, k8, k9, k10, k11, k12, k13, k14,
      k15, k16, k17, k18⟩ := hc
    rw [if_neg (by omega)]
    rw [if_neg (by omega)]
    rw [if_neg (by omega)]
    rw [if_neg (by omega)]
    rw [if_neg (by omega)]
    rw [if_neg (by omega)]
    rw [if_neg (not_not_intro k7)]
    rw [if_neg (not_not_intro k8)]
    rw [if_neg (not_not_intro k9)]
    rw [if_neg (not_not_intro k10)]
    rw [if_neg (not_not_intro k11)]
    rw [if_neg (not_not_intro k12)]
    rw [if_neg (not_not_intro k13)]
    rw [if_neg (not_not_intro k14)]
    rw [if_neg (not_lt.mpr k15)]
    rw [if_neg (not_lt.mpr k16)]
    rw [if_neg (not_lt.mpr k17)]
    rw [if_neg (not_lt.mpr k18)]

/-! ## Cache fingerprint (claim C5) -/

theorem string_mk_data (l : List Char) : (String.mk l).data = l := rfl

theorem string_data_append (s t : String) : (s ++ t).data = s.data ++ t.data := rfl

theorem digitChar_toNat : ∀ d < 10, (digitChar d).toNat = 48 + d := by decide

theorem charsVal_natCharsAux :
    ∀ fuel n, n ≤ fuel → charsVal (natCharsAux fuel n) = n := by
  intro fuel
  induction fuel with
  | zero =>
    intro n hn
    have h0 : n = 0 := by omega
    subst h0
    decide
  | succ fuel ih =>
    intro n hn
    by_cases h : n < 10
    · simp only [natCharsAux]
      rw [if_pos h]
      simp only [charsVal, List.foldl_cons, List.foldl_nil]
      have := digitChar_toNat n h
      omega
    · simp only [natCharsAux]
      rw [if_neg h]
      have hfold : charsVal (natCharsAux fuel (n / 10) ++ [digitChar (n % 10)]) =
          charsVal (natCharsAux fuel (n / 10)) * 10 +
            ((digitChar (n % 10)).toNat - 48) := by
        simp [charsVal, List.foldl_append]
      rw [hfold, ih (n / 10) (by omega)]
      have := digitChar_toNat (n % 10) (Nat.mod_lt _ (by omega))
      omega

theorem charsVal_natChars (n : Nat) : charsVal (natChars n) = n :=
  charsVal_natCharsAux n n le_rfl

theorem natChars_inj {a b : Nat} (h : natChars a = natChars b) : a = b := by
  have ha := charsVal_natChars a
  have hb := charsVal_natChars b
  rw [← ha, ← hb, h]

section RatKernelEval2

attribute [local semireducible] Rat.mul Rat.add Rat.sub Rat.inv Rat.ofScientific

/-- C5 counterexample: two Settings records that differ (in `thumb_w` and
`thumb_h`: 1/11 versus 11/1) but produce the same fingerprint for the same
filename, because the fields are concatenated with no separators. -/
theorem fingerprint_collision :
    ({ Config.default with thumb_w := 1, thumb_h := 11 } : Config) ≠
      { Config.default with thumb_w := 11, thumb_h := 1 } ∧
    fingerprint { Config.default with thumb_w := 1, thumb_h := 11 } "img.png" =
      fingerprint { Config.default with thumb_w := 11, thumb_h := 1 } "img.png" := by
  constructor
  · decide
  · decide

end RatKernelEval2

/-- C5 (amended): the fingerprint is deterministic — identical settings and
filename give an identical key — and two Settings differing only in
`thumb_w` give different fingerprints; but distinct Settings do not always
give distinct fingerprints (separator-free concatenation can collide, see
the counterexample). -/
theorem fingerprint_deterministic_and_thumb_w_sensitive :
    (∀ (c₁ c₂ : Config) (n₁ n₂ : String), c₁ = c₂ → n₁ = n₂ →
      fingerprint c₁ n₁ = fingerprint c₂ n₂) ∧
    (∀ (c : Config) (name : String) (w₁ w₂ : Nat), w₁ ≠ w₂ →
      fingerprint { c with thumb_w := w₁ } name ≠
        fingerprint { c with thumb_w := w₂ } name) := by
  constructor
  · intro c₁ c₂ n₁ n₂ hc hn
    rw [hc, hn]
  · intro c name w₁ w₂ hne h
    apply hne
    apply natChars_inj
    have hd := congrArg String.data h
    simp only [fingerprint, cache_string, string_data_append, natStr,
      string_mk_data, List.append_assoc] at hd
    exact List.append_cancel_right (List.append_cancel_left hd)

/-- Witness: determinism and `thumb_w` sensitivity at concrete inputs. -/
theorem fingerprint_deterministic_and_thumb_w_sensitive_witness :
    fingerprint Config.default "a.png" = fingerprint Config.default "a.png" ∧
    fingerprint { Config.default with thumb_w := 1 } "a.png" ≠
      fingerprint { Config.default with thumb_w := 2 } "a.png" :=
  ⟨fingerprint_deterministic_and_thumb_w_sensitive.1 _ _ _ _ rfl rfl,
    fingerprint_deterministic_and_thumb_w_sensitive.2 Config.default "a.png" 1 2
      (by decide)⟩

/-! ## The ColorThief backend (claim C6) -/

/-- C6 counterexample: with an external routine that succeeds exactly when
asked for 8 colours, calling the backend with requested count 8 still
fails, because the code ignores the count and passes a fixed 255 — so the
backend does not request the caller's target count. -/
theorem colorthief_ignores_requested_count :
    colorthief_generate_palette probeThief [(0, 0, 0)] 8 = none ∧
    probeThief [0, 0, 0] ColorFormat.rgb 5 8 = Except.ok [] :=
  ⟨rfl, rfl⟩

/-- C6 (amended): the backend flattens the colours to interleaved sRGB
bytes and invokes the external routine with fixed quality 5 and a fixed
maximum colour count of 255, ignoring the requested count entirely (any
two counts give the same result), and it returns `none` exactly when the
routine fails. -/
theorem colorthief_fixed_arguments
    (gp : List Nat → ColorFormat → Nat → Nat → Except Unit (List Color))
    (colors : List Color) (count : Nat) :
    (∀ cs, gp ((colors.map fun c => [c.1, c.2.1, c.2.2]).flatten)
        ColorFormat.rgb 5 255 = Except.ok cs →
      colorthief_generate_palette gp colors count = some cs) ∧
    (∀ e, gp ((colors.map fun c => [c.1, c.2.1, c.2.2]).flatten)
        ColorFormat.rgb 5 255 = Except.error e →
      colorthief_generate_palette gp colors count = none) ∧
    (∀ count₂, colorthief_generate_palette gp colors count =
      colorthief_generate_palette gp colors count₂) := by
  refine ⟨?_, ?_, ?_⟩
  · intro cs h
    simp [colorthief_generate_palette, h]
  · intro e h
    simp [colorthief_generate_palette, h]
  · intro count₂
    rfl

/-- Witness: the amended theorem applied to a routine that returns a fixed
palette, at the one-pixel input `(9, 9, 9)` with count 8 and 3. -/
theorem colorthief_fixed_arguments_witness :
    colorthief_generate_palette (fun _ _ _ _ => Except.ok [(1, 2, 3)])
      [(9, 9, 9)] 8 = some [(1, 2, 3)] ∧
    colorthief_generate_palette (fun _ _ _ _ => Except.error ())
      [(9, 9, 9)] 8 = none ∧
    colorthief_generate_palette (fun _ _ _ _ => Except.ok [(1, 2, 3)])
      [(9, 9, 9)] 8 =
      colorthief_generate_palette (fun _ _ _ _ => Except.ok [(1, 2, 3)])
        [(9, 9, 9)] 3 :=
  ⟨(colorthief_fixed_arguments _ [(9, 9, 9)] 8).1 [(1, 2, 3)] rfl,
   (colorthief_fixed_arguments _ [(9, 9, 9)] 8).2.1 () rfl,
   (colorthief_fixed_arguments _ [(9, 9, 9)] 8).2.2 3⟩

/-! ## The ColorZ backend (claim C3) -/

/-- C3: the KMeans (ColorZ) backend returns `none` exactly when the input
is empty; on success the palette comes from one of the three runs with the
deterministic seeds 64, 65, 66, that run's score is the lowest of the
three, and the converted centroids are padded with pure black up to the
requested count (the result length is `max centroids count`). -/
theorem colorz_spec {Lab : Type} (ext : ColorZExt Lab) (colors : List Color)
    (count : Nat) :
    (colorz_generate_palette ext colors count = none ↔ colors = []) ∧
    (∀ pal, colorz_generate_palette ext colors count = some pal →
      ∃ best : KmeansRun Lab,
        (best = ext.getKmeans count 100 (1 / 1000) false (colors.map ext.toLab) 64 ∨
         best = ext.getKmeans count 100 (1 / 1000) false (colors.map ext.toLab) 65 ∨
         best = ext.getKmeans count 100 (1 / 1000) false (colors.map ext.toLab) 66) ∧
        best.score ≤ (ext.getKmeans count 100 (1 / 1000) false (colors.map ext.toLab) 64).score ∧
        best.score ≤ (ext.getKmeans count 100 (1 / 1000) false (colors.map ext.toLab) 65).score ∧
        best.score ≤ (ext.getKmeans count 100 (1 / 1000) false (colors.map ext.toLab) 66).score ∧
        pal = best.centroids.map ext.fromLab ++
          List.replicate (count - (best.centroids.map ext.fromLab).length) (0, 0, 0) ∧
        pal.length = max (best.centroids.map ext.fromLab).length count) := by
  by_cases hc : colors = []
  · constructor
    · simp [colorz_generate_palette, hc]
    · intro pal hpal
      rw [hc] at hpal
      simp [colorz_generate_palette] at hpal
  · have hne : colors.isEmpty = false := by
      cases colors with
      | nil => exact absurd rfl hc
      | cons a l => rfl
    have hrange : List.range 3 = [0, 1, 2] := rfl
    have heval : colorz_generate_palette ext colors count =
        (let r0 := ext.getKmeans count 100 (1 / 1000) false (colors.map ext.toLab) 64
         let r1 := ext.getKmeans count 100 (1 / 1000) false (colors.map ext.toLab) 65
         let r2 := ext.getKmeans count 100 (1 / 1000) false (colors.map ext.toLab) 66
         let best := (if (if r0.score > r1.score then r1 else r0).score > r2.score
           then r2 else if r0.score > r1.score then r1 else r0)
         some (best.centroids.map ext.fromLab ++
           List.replicate (count - (best.centroids.map ext.fromLab).length) (0, 0, 0))) := by
      simp only [colorz_generate_palette, hne, Bool.false_eq_true, if_false,
        hrange, List.map_cons, List.map_nil, minByScore, List.foldl_cons,
        List.foldl_nil, Nat.add_zero, Nat.reduceAdd]
    rw [heval]
    simp only []
    constructor
    · simp [hc]
    · intro pal hpal
      rw [Option.some.injEq] at hpal
      by_cases h1 : (ext.getKmeans count 100 (1 / 1000) false (colors.map ext.toLab) 64).score >
          (ext.getKmeans count 100 (1 / 1000) false (colors.map ext.toLab) 65).score
      · rw [if_pos h1] at hpal
        by_cases h2 : (ext.getKmeans count 100 (1 / 1000) false (colors.map ext.toLab) 65).score >
            (ext.getKmeans count 100 (1 / 1000) false (colors.map ext.toLab) 66).score
        · rw [if_pos h2] at hpal
          refine ⟨_, Or.inr (Or.inr rfl), by linarith, by linarith, le_rfl, hpal.symm, ?_⟩
          rw [← hpal]
          simp only [List.length_append, List.length_replicate]
          omega
        · rw [if_neg h2] at hpal
          push_neg at h2
          refine ⟨_, Or.inr (Or.inl rfl), by linarith, le_rfl, h2, hpal.symm, ?_⟩
          rw [← hpal]
          simp only [List.length_append, List.length_replicate]
          omega
      · rw [if_neg h1] at hpal
        push_neg at h1
        by_cases h2 : (ext.getKmeans count 100 (1 / 1000) false (colors.map ext.toLab) 64).score >
            (ext.getKmeans count 100 (1 / 1000) false (colors.map ext.toLab) 66).score
        · rw [if_pos h2] at hpal
          refine ⟨_, Or.inr (Or.inr rfl), by linarith, by linarith, le_rfl, hpal.symm, ?_⟩
          rw [← hpal]
          simp only [List.length_append, List.length_replicate]
          omega
        · rw [if_neg h2] at hpal
          push_neg at h2
          refine ⟨_, Or.inl rfl, le_rfl, h1, h2, hpal.symm, ?_⟩
          rw [← hpal]
          simp only [List.length_append, List.length_replicate]
          omega

/-- Witness: the backend theorem applied to the concrete instantiation
`extW` on the one-pixel input `(1,2,3)` with count 8; the returned palette
is two centroids plus six black padding entries. -/
theorem colorz_spec_witness :
    ∃ best : KmeansRun Unit,
      (best = extW.getKmeans 8 100 (1 / 1000) false ([(1, 2, 3)].map extW.toLab) 64 ∨
       best = extW.getKmeans 8 100 (1 / 1000) false ([(1, 2, 3)].map extW.toLab) 65 ∨
       best = extW.getKmeans 8 100 (1 / 1000) false ([(1, 2, 3)].map extW.toLab) 66) ∧
      best.score ≤
        (extW.getKmeans 8 100 (1 / 1000) false ([(1, 2, 3)].map extW.toLab) 64).score ∧
      best.score ≤
        (extW.getKmeans 8 100 (1 / 1000) false ([(1, 2, 3)].map extW.toLab) 65).score ∧
      best.score ≤
        (extW.getKmeans 8 100 (1 / 1000) false ([(1, 2, 3)].map extW.toLab) 66).score ∧
      palW = best.centroids.map extW.fromLab ++
        List.replicate (8 - (best.centroids.map extW.fromLab).length) (0, 0, 0) ∧
      palW.length = max (best.centroids.map extW.fromLab).length 8 :=
  (colorz_spec extW [(1, 2, 3)] 8).2 palW (by rfl)

/-! ## Colorscheme synthesis (claims C1 and C10) -/

theorem idxE_lt {l : List Color} {i : Nat} (h : i < l.length) :
    idxE l i = Except.ok (l.getD i (0, 0, 0)) := by
  unfold idxE
  rw [List.getElem?_eq_getElem h]
  simp [List.getD_eq_getElem?_getD, List.getElem?_eq_getElem h]

theorem mkColorscheme_eval (rw : Rwal) (palette : List Color)
    (hlen : 8 ≤ palette.length) (hbg : rw.bg_idx ≤ 7) (hfg : rw.fg_idx ≤ 7) :
    mkColorscheme rw palette = Except.ok
      { t0 := mix_colors rw.bg_color (palette.getD rw.bg_idx (0, 0, 0)) rw.bg_strength
        t1 := palette.getD 1 (0, 0, 0)
        t2 := palette.getD 2 (0, 0, 0)
        t3 := palette.getD 3 (0, 0, 0)
        t4 := palette.getD 4 (0, 0, 0)
        t5 := palette.getD 5 (0, 0, 0)
        t6 := palette.getD 6 (0, 0, 0)
        t7 := mix_colors rw.fg_color (palette.getD rw.fg_idx (0, 0, 0)) rw.fg_strength
        t8 := mix_colors
          (mix_colors rw.bg_color (palette.getD rw.bg_idx (0, 0, 0)) rw.bg_strength)
          (255, 255, 255) 10
        t9 := mix_colors (palette.getD 1 (0, 0, 0)) (255, 255, 255) 30
        t10 := mix_colors (palette.getD 2 (0, 0, 0)) (255, 255, 255) 30
        t11 := mix_colors (palette.getD 3 (0, 0, 0)) (255, 255, 255) 30
        t12 := mix_colors (palette.getD 4 (0, 0, 0)) (255, 255, 255) 30
        t13 := mix_colors (palette.getD 5 (0, 0, 0)) (255, 255, 255) 30
        t14 := mix_colors (palette.getD 6 (0, 0, 0)) (255, 255, 255) 30
        t15 := mix_colors
          (mix_colors rw.fg_color (palette.getD rw.fg_idx (0, 0, 0)) rw.fg_strength)
          (255, 255, 255) 10 } := by
  have e1 : idxE palette rw.bg_idx = Except.ok (palette.getD rw.bg_idx (0, 0, 0)) :=
    idxE_lt (by omega)
  have e2 : idxE palette rw.fg_idx = Except.ok (palette.getD rw.fg_idx (0, 0, 0)) :=
    idxE_lt (by omega)
  have e3 : idxE palette 1 = Except.ok (palette.getD 1 (0, 0, 0)) := idxE_lt (by omega)
  have e4 : idxE palette 2 = Except.ok (palette.getD 2 (0, 0, 0)) := idxE_lt (by omega)
  have e5 : idxE palette 3 = Except.ok (palette.getD 3 (0, 0, 0)) := idxE_lt (by omega)
  have e6 : idxE palette 4 = Except.ok (palette.getD 4 (0, 0, 0)) := idxE_lt (by omega)
  have e7 : idxE palette 5 = Except.ok (palette.getD 5 (0, 0, 0)) := idxE_lt (by omega)
  have e8 : idxE palette 6 = Except.ok (palette.getD 6 (0, 0, 0)) := idxE_lt (by omega)
  simp [mkColorscheme, e1, e2, e3, e4, e5, e6, e7, e8, Except.instMonad, Except.bind]

/-- C1: for every palette of length at least 8 and in-range accent indices,
the synthesized Colorscheme has `t0`/`t7` as the accent blends of the
background/foreground colours, `t1..t6` as palette entries 1..6 verbatim,
`t9..t14` as those entries blended 30% toward white, and `t8`/`t15` as
`t0`/`t7` blended 10% toward white. -/
theorem mkColorscheme_fields (rw : Rwal) (palette : List Color)
    (hlen : 8 ≤ palette.length) (hbg : rw.bg_idx ≤ 7) (hfg : rw.fg_idx ≤ 7) :
    mkColorscheme rw palette = Except.ok
      { t0 := mix_colors rw.bg_color (palette.getD rw.bg_idx (0, 0, 0)) rw.bg_strength
        t1 := palette.getD 1 (0, 0, 0)
        t2 := palette.getD 2 (0, 0, 0)
        t3 := palette.getD 3 (0, 0, 0)
        t4 := palette.getD 4 (0, 0, 0)
        t5 := palette.getD 5 (0, 0, 0)
        t6 := palette.getD 6 (0, 0, 0)
        t7 := mix_colors rw.fg_color (palette.getD rw.fg_idx (0, 0, 0)) rw.fg_strength
        t8 := mix_colors
          (mix_colors rw.bg_color (palette.getD rw.bg_idx (0, 0, 0)) rw.bg_strength)
          (255, 255, 255) 10
        t9 := mix_colors (palette.getD 1 (0, 0, 0)) (255, 255, 255) 30
        t10 := mix_colors (palette.getD 2 (0, 0, 0)) (255, 255, 255) 30
        t11 := mix_colors (palette.getD 3 (0, 0, 0)) (255, 255, 255) 30
        t12 := mix_colors (palette.getD 4 (0, 0, 0)) (255, 255, 255) 30
        t13 := mix_colors (palette.getD 5 (0, 0, 0)) (255, 255, 255) 30
        t14 := mix_colors (palette.getD 6 (0, 0, 0)) (255, 255, 255) 30
        t15 := mix_colors
          (mix_colors rw.fg_color (palette.getD rw.fg_idx (0, 0, 0)) rw.fg_strength)
          (255, 255, 255) 10 } :=
  mkColorscheme_eval rw palette hlen hbg hfg

/-- Witness: the synthesis theorem applied to the concrete settings `rwW`
and the eight-entry palette `palW8`. -/
theorem mkColorscheme_fields_witness :
    mkColorscheme rwW palW8 = Except.ok
      { t0 := mix_colors rwW.bg_color (palW8.getD rwW.bg_idx (0, 0, 0)) rwW.bg_strength
        t1 := palW8.getD 1 (0, 0, 0)
        t2 := palW8.getD 2 (0, 0, 0)
        t3 := palW8.getD 3 (0, 0, 0)
        t4 := palW8.getD 4 (0, 0, 0)
        t5 := palW8.getD 5 (0, 0, 0)
        t6 := palW8.getD 6 (0, 0, 0)
        t7 := mix_colors rwW.fg_color (palW8.getD rwW.fg_idx (0, 0, 0)) rwW.fg_strength
        t8 := mix_colors
          (mix_colors rwW.bg_color (palW8.getD rwW.bg_idx (0, 0, 0)) rwW.bg_strength)
          (255, 255, 255) 10
        t9 := mix_colors (palW8.getD 1 (0, 0, 0)) (255, 255, 255) 30
        t10 := mix_colors (palW8.getD 2 (0, 0, 0)) (255, 255, 255) 30
        t11 := mix_colors (palW8.getD 3 (0, 0, 0)) (255, 255, 255) 30
        t12 := mix_colors (palW8.getD 4 (0, 0, 0)) (255, 255, 255) 30
        t13 := mix_colors (palW8.getD 5 (0, 0, 0)) (255, 255, 255) 30
        t14 := mix_colors (palW8.getD 6 (0, 0, 0)) (255, 255, 255) 30
        t15 := mix_colors
          (mix_colors rwW.fg_color (palW8.getD rwW.fg_idx (0, 0, 0)) rwW.fg_strength)
          (255, 255, 255) 10 } :=
  mkColorscheme_fields rwW palW8 (by decide) (by decide) (by decide)

theorem sort_by_hue_length (l : List Color) : (sort_by_hue l).length = l.length := by
  simp [sort_by_hue]

/-- C10: with in-range accent indices, `generate_colorscheme` never
performs an out-of-bounds palette access: the hue sort preserves length,
a backend palette that sorts to fewer than 8 colours yields the error
"Not enough colors generated" before any indexing, and the result is never
the out-of-bounds panic. -/
theorem generate_colorscheme_safe (rw : Rwal) (res : Option (List Color))
    (hbg : rw.bg_idx ≤ 7) (hfg : rw.fg_idx ≤ 7) :
    (∀ l : List Color, (sort_by_hue l).length = l.length) ∧
    (∀ palette, res = some palette → (sort_by_hue palette).length < 8 →
      generate_colorscheme rw res = Except.error "Not enough colors generated") ∧
    generate_colorscheme rw res ≠ Except.error "index out of bounds" := by
  refine ⟨sort_by_hue_length, ?_, ?_⟩
  · intro palette h hlt
    subst h
    simp [generate_colorscheme, hlt]
  · cases res with
    | none => simp [generate_colorscheme]
    | some palette =>
      by_cases hlt : (sort_by_hue palette).length < 8
      · simp [generate_colorscheme, hlt]
      · have hlen : 8 ≤ (sort_by_hue (sort_by_hue palette)).length := by
          rw [sort_by_hue_length]; omega
        simp [generate_colorscheme, hlt, mkColorscheme_eval rw _ hlen hbg hfg]

/-- Witness: the safety theorem applied to the concrete settings `rwW` and
a one-colour backend result. -/
theorem generate_colorscheme_safe_witness :
    generate_colorscheme rwW (some [(0, 0, 0)]) ≠
      Except.error "index out of bounds" :=
  (generate_colorscheme_safe rwW (some [(0, 0, 0)]) (by decide) (by decide)).2.2

/-! ## The HSV normalizer (claim C4) -/

/-- C4: `prepare_colors` is the filter by the claim-level retention
predicate followed by the clamp-and-convert map (so clamping happens after
filtering); the retention predicate is exactly the AND of the two strict
in-between conditions for the enabled skip toggles, boundary values are
dropped; clamping replaces saturation/value with `clamp` into the
inclusive bounds for each enabled clamp toggle, and leaves samples already
inside the clamp ranges unchanged. -/
theorem prepare_colors_spec (rw : Rwal) (pixels : List Color) :
    prepare_colors rw pixels =
      ((pixels.map rgbToHsvQ).filter (skipPred rw)).map
        (fun c => hsvToRgbQ (clampHsv rw c)) ∧
    (∀ c : HsvQ, skipPred rw c = true ↔
      ((rw.skip_saturation = true →
          rw.saturation_skip.1 < c.s ∧ c.s < rw.saturation_skip.2) ∧
       (rw.skip_value = true →
          rw.value_skip.1 < c.v ∧ c.v < rw.value_skip.2))) ∧
    (∀ c : HsvQ, rw.skip_saturation = true →
      (c.s = rw.saturation_skip.1 ∨ c.s = rw.saturation_skip.2) →
      skipPred rw c = false) ∧
    (∀ c : HsvQ, rw.skip_value = true →
      (c.v = rw.value_skip.1 ∨ c.v = rw.value_skip.2) →
      skipPred rw c = false) ∧
    (∀ c : HsvQ, clampHsv rw c =
      ⟨c.h,
       if rw.clamp_saturation then
         qclamp c.s rw.saturation_clamp.1 rw.saturation_clamp.2
       else c.s,
       if rw.clamp_value then qclamp c.v rw.value_clamp.1 rw.value_clamp.2
       else c.v⟩) ∧
    (∀ c : HsvQ,
      (rw.clamp_saturation = true →
        rw.saturation_clamp.1 ≤ c.s ∧ c.s ≤ rw.saturation_clamp.2) →
      (rw.clamp_value = true →
        rw.value_clamp.1 ≤ c.v ∧ c.v ≤ rw.value_clamp.2) →
      clampHsv rw c = c) ∧
    (∀ x lo hi : ℚ, (lo ≤ x → x ≤ hi → qclamp x lo hi = x) ∧
      (x < lo → qclamp x lo hi = lo) ∧
      (lo ≤ hi → hi < x → qclamp x lo hi = hi)) := by
  have hclamp : ∀ c : HsvQ, clampHsv rw c =
      ⟨c.h,
       if rw.clamp_saturation then
         qclamp c.s rw.saturation_clamp.1 rw.saturation_clamp.2
       else c.s,
       if rw.clamp_value then qclamp c.v rw.value_clamp.1 rw.value_clamp.2
       else c.v⟩ := by
    intro c
    unfold clampHsv
    cases hcs : rw.clamp_saturation <;> cases hcv : rw.clamp_value <;> simp
  have hq : ∀ x lo hi : ℚ, (lo ≤ x → x ≤ hi → qclamp x lo hi = x) ∧
      (x < lo → qclamp x lo hi = lo) ∧
      (lo ≤ hi → hi < x → qclamp x lo hi = hi) := by
    intro x lo hi
    unfold qclamp
    refine ⟨fun h1 h2 => ?_, fun h => ?_, fun h0 h => ?_⟩
    · rw [if_neg (not_lt.mpr h1), if_neg (not_lt.mpr h2)]
    · rw [if_pos h]
    · rw [if_neg (not_lt.mpr (by linarith)), if_pos h]
  refine ⟨?_, ?_, ?_, ?_, hclamp, ?_, hq⟩
  · unfold prepare_colors
    rw [List.filter_filter]
    have hpt : ∀ c : HsvQ, c ∈ pixels.map rgbToHsvQ →
        ((if !rw.skip_value then true
          else decide (rw.value_skip.1 < c.v) && decide (c.v < rw.value_skip.2)) &&
         (if !rw.skip_saturation then true
          else decide (rw.saturation_skip.1 < c.s) &&
            decide (c.s < rw.saturation_skip.2))) = skipPred rw c := by
      intro c _
      cases hs : rw.skip_saturation <;> cases hv : rw.skip_value <;>
        simp [skipPred, hs, hv, Bool.and_comm]
    rw [List.filter_congr hpt]
  · intro c
    cases hs : rw.skip_saturation <;> cases hv : rw.skip_value <;>
      simp [skipPred, hs, hv]
  · intro c hs hb
    simp only [skipPred, decide_eq_false_iff_not]
    intro hcon
    rcases hcon.1 hs with ⟨hlt1, hlt2⟩
    rcases hb with hb | hb <;> rw [hb] at hlt1 hlt2 <;> linarith
  · intro c hv hb
    simp only [skipPred, decide_eq_false_iff_not]
    intro hcon
    rcases hcon.2 hv with ⟨hlt1, hlt2⟩
    rcases hb with hb | hb <;> rw [hb] at hlt1 hlt2 <;> linarith
  · intro c h1 h2
    obtain ⟨ch, cs, cv⟩ := c
    rw [hclamp ⟨ch, cs, cv⟩]
    cases hcs : rw.clamp_saturation <;> cases hcv : rw.clamp_value <;>
      simp [HsvQ.mk.injEq]
    · exact (hq _ _ _).1 (h2 hcv).1 (h2 hcv).2
    · exact (hq _ _ _).1 (h1 hcs).1 (h1 hcs).2
    · exact ⟨(hq _ _ _).1 (h1 hcs).1 (h1 hcs).2,
        (hq _ _ _).1 (h2 hcv).1 (h2 hcv).2⟩

/-- Witness: a sample sitting exactly on the saturation-skip lower bound is
dropped under the skip-enabled settings `rwSkip`. -/
theorem prepare_colors_spec_witness :
    skipPred rwSkip ⟨0, rwSkip.saturation_skip.1, 0⟩ = false :=
  (prepare_colors_spec rwSkip []).2.2.1 ⟨0, rwSkip.saturation_skip.1, 0⟩ rfl
    (Or.inl rfl)

/-! ## The palette orderer (claim C7) -/

/-- C7: the hue sort returns a permutation of its input sorted ascending by
hue, equal-hue colours keep their original relative order (the filter to
any fixed hue class is unchanged), repeated runs on the same input are
identical, and an input whose hues are already strictly increasing is
returned unchanged.  The hypothesis restricts to genuine `u8` colours, as
guaranteed by the Rust types. -/
theorem sort_by_hue_spec (l : List Color)
    (hval : ∀ c ∈ l, c.1 ≤ 255 ∧ c.2.1 ≤ 255 ∧ c.2.2 ≤ 255) :
    sort_by_hue l = sort_by_hue l ∧
    List.Perm (sort_by_hue l) l ∧
    List.Pairwise (fun a b => hueOf a ≤ hueOf b) (sort_by_hue l) ∧
    (∀ q : ℚ, (sort_by_hue l).filter (fun c => decide (hueOf c = q)) =
      l.filter (fun c => decide (hueOf c = q))) ∧
    (List.Pairwise (fun a b => hueOf a < hueOf b) l → sort_by_hue l = l) := by
  have hrt : ∀ c ∈ l, hsvToRgbQ (rgbToHsvQ c) = c := fun c hc =>
    hsvToRgbQ_rgbToHsvQ c (hval c hc).1 (hval c hc).2.1 (hval c hc).2.2
  have hmapback : (l.map rgbToHsvQ).map hsvToRgbQ = l := by
    rw [List.map_map]
    have h : ∀ c ∈ l, (hsvToRgbQ ∘ rgbToHsvQ) c = id c := fun c hc => hrt c hc
    rw [List.map_congr_left h, List.map_id]
  have hback : ∀ x ∈ List.insertionSort hueLe (l.map rgbToHsvQ),
      hueOf (hsvToRgbQ x) = x.h := by
    intro x hx
    rw [List.mem_insertionSort] at hx
    obtain ⟨c, hc, rfl⟩ := List.mem_map.mp hx
    rw [hrt c hc]
    rfl
  refine ⟨rfl, ?_, ?_, ?_, ?_⟩
  · have h := (List.perm_insertionSort hueLe (l.map rgbToHsvQ)).map hsvToRgbQ
    rw [hmapback] at h
    exact h
  · show List.Pairwise _ ((List.insertionSort hueLe (l.map rgbToHsvQ)).map hsvToRgbQ)
    rw [List.pairwise_map]
    refine List.Pairwise.imp_of_mem ?_
      (List.sorted_insertionSort hueLe (l.map rgbToHsvQ))
    intro a b ha hb hab
    rw [hback a ha, hback b hb]
    exact hab
  · intro q
    show ((List.insertionSort hueLe (l.map rgbToHsvQ)).map hsvToRgbQ).filter _ = _
    rw [List.filter_map]
    have hfc : (List.insertionSort hueLe (l.map rgbToHsvQ)).filter
          ((fun c => decide (hueOf c = q)) ∘ hsvToRgbQ) =
        (List.insertionSort hueLe (l.map rgbToHsvQ)).filter
          (fun x => decide (x.h = q)) := by
      refine List.filter_congr ?_
      intro x hx
      simp [Function.comp, hback x hx]
    rw [hfc]
    have hstab : (List.insertionSort hueLe (l.map rgbToHsvQ)).filter
          (fun x => decide (x.h = q)) =
        (l.map rgbToHsvQ).filter (fun x => decide (x.h = q)) := by
      have h1 : List.Sublist ((l.map rgbToHsvQ).filter (fun x => decide (x.h = q)))
          (List.insertionSort hueLe (l.map rgbToHsvQ)) := by
        refine List.sublist_insertionSort ?_ (List.filter_sublist _)
        refine List.pairwise_of_forall_mem_list ?_
        intro a ha b hb
        have ha2 := List.of_mem_filter ha
        have hb2 := List.of_mem_filter hb
        simp only [decide_eq_true_eq] at ha2 hb2
        show a.h ≤ b.h
        rw [ha2, hb2]
      have h2 := List.Sublist.filter (fun x => decide (x.h = q)) h1
      rw [List.filter_filter] at h2
      simp only [Bool.and_self] at h2
      have h3 := ((List.perm_insertionSort hueLe (l.map rgbToHsvQ)).filter
        (fun x => decide (x.h = q))).length_eq
      exact (h2.eq_of_length h3.symm).symm
    rw [hstab]
    rw [List.filter_map]
    have h : ∀ c ∈ l.filter ((fun x : HsvQ => decide (x.h = q)) ∘ rgbToHsvQ),
        (hsvToRgbQ ∘ rgbToHsvQ) c = id c := fun c hc =>
      hrt c (List.mem_of_mem_filter hc)
    rw [List.map_map, List.map_congr_left h, List.map_id]
    exact List.filter_congr fun c _ => rfl
  · intro hstrict
    have hH : List.Pairwise hueLe (l.map rgbToHsvQ) := by
      rw [List.pairwise_map]
      exact hstrict.imp fun h => le_of_lt h
    show (List.insertionSort hueLe (l.map rgbToHsvQ)).map hsvToRgbQ = l
    rw [List.Sorted.insertionSort_eq hH, hmapback]

section RatKernelEval3

attribute [local semireducible] Rat.mul Rat.add Rat.sub Rat.inv Rat.ofScientific

/-- Witness: the orderer theorem applied to the two-colour list red, green:
the result is a permutation, and since red's hue 0 is below green's 120
the list is returned unchanged. -/
theorem sort_by_hue_spec_witness :
    List.Perm (sort_by_hue [(255, 0, 0), (0, 255, 0)])
      [((255 : Nat), (0 : Nat), (0 : Nat)), (0, 255, 0)] ∧
    sort_by_hue [(255, 0, 0), (0, 255, 0)] =
      [((255 : Nat), (0 : Nat), (0 : Nat)), (0, 255, 0)] :=
  ⟨(sort_by_hue_spec [(255, 0, 0), (0, 255, 0)] (by decide)).2.1,
   (sort_by_hue_spec [(255, 0, 0), (0, 255, 0)] (by decide)).2.2.2.2 (by decide)⟩

end RatKernelEval3

end RwalSpec
